import Mathlib

/-!
Verification development for the brewbuddy backend.

The definitions below are a shallow embedding of `src/server.js` (the
current server): the `users` and `coffees` tables become lists of rows in a
`DB` state, SQL queries become list operations, and each route handler
becomes a function from the request and the current state to a response
(and, for writes, a new state).  Timestamps (`DATETIME DEFAULT
CURRENT_TIMESTAMP`) are modelled by a logical clock in the state that
strictly increases at every insert.  Randomness (`uuidv4()`) is modelled by
passing the generated token as an explicit argument.  The external AI call
of `/api/analyze-coffee` is modelled by passing the upstream reply and the
behaviour of `JSON.parse` as explicit arguments.
-/

namespace BrewBuddy

/-- Opening brace character. -/
def obrace : Char := Char.ofNat 123

/-- Closing brace character. -/
def cbrace : Char := Char.ofNat 125

/-- Backtick character. -/
def btick : Char := Char.ofNat 96

/-- ASCII lowercase of one character, as SQLite's `LOWER` folds only the
ASCII range. -/
def lowerAsciiChar (c : Char) : Char :=
  if 'A' ≤ c ∧ c ≤ 'Z' then Char.ofNat (c.toNat + 32) else c

/-- ASCII lowercase of a string: the `LOWER(...)` of the registration
queries in `src/server.js`. -/
def lowerAscii (s : String) : String :=
  String.mk (s.data.map lowerAsciiChar)

/-- JavaScript's `String.prototype.trim()`: remove leading and trailing
whitespace, modelled on the character list. -/
def jsTrim (s : String) : String :=
  String.mk (((s.data.dropWhile Char.isWhitespace).reverse.dropWhile
    Char.isWhitespace).reverse)

/-- A row of the `users` table: `id`, `username`, `token`, `created_at`. -/
structure User where
  id : Nat
  username : String
  token : String
  createdAt : Nat
  deriving Repr, DecidableEq

/-- A row of the `coffees` table: `id`, `user_id`, `data` (the opaque
serialized JSON blob), `created_at`. -/
structure CoffeeRow where
  id : Nat
  userId : Nat
  data : String
  createdAt : Nat
  deriving Repr, DecidableEq

/-- The database state: both tables, the `AUTOINCREMENT` counters, and the
logical clock supplying `CURRENT_TIMESTAMP` values. -/
structure DB where
  users : List User
  nextUserId : Nat
  coffees : List CoffeeRow
  nextCoffeeId : Nat
  clock : Nat
  deriving Repr, DecidableEq

/-- The freshly created database: both tables empty, ids starting at 1. -/
def initialDB : DB := ⟨[], 1, [], 1, 0⟩

/-- The `user` payload of a successful registration response. -/
structure RegUser where
  id : Nat
  username : String
  token : String
  deriving Repr, DecidableEq

/-- JSON body (plus HTTP status) answered by `POST /api/auth/register`. -/
structure RegisterResponse where
  status : Nat
  success : Bool
  error : Option String
  user : Option RegUser
  spotsRemaining : Option Nat
  deriving Repr, DecidableEq

/-- `POST /api/auth/register` from `src/server.js`: validates the username,
enforces the 10-user cap, rejects case-insensitive duplicates, then inserts
the trimmed username with the supplied fresh token.  The `freshToken`
argument stands for the `uuidv4()` call; colliding with an existing token
would violate the `UNIQUE` constraint of the table, which the handler's
`catch` turns into a 500. -/
def register (st : DB) (username : Option String) (freshToken : String) :
    DB × RegisterResponse :=
  match username with
  | none => (st, ⟨400, false, some "Username must be at least 2 characters", none, none⟩)
  | some uname =>
    if (jsTrim uname).length < 2 then
      (st, ⟨400, false, some "Username must be at least 2 characters", none, none⟩)
    else if 10 ≤ st.users.length then
      (st, ⟨403, false, some "Tester limit reached (10/10)", none, some 0⟩)
    else if st.users.any (fun w => lowerAscii w.username == lowerAscii (jsTrim uname)) then
      (st, ⟨409, false, some "Username already taken", none, none⟩)
    else if st.users.any (fun w => w.token == freshToken) then
      (st, ⟨500, false, some "Server error", none, none⟩)
    else
      let newUsers := st.users ++ [⟨st.nextUserId, (jsTrim uname), freshToken, st.clock⟩]
      ({ st with
          users := newUsers
          nextUserId := st.nextUserId + 1
          clock := st.clock + 1 },
       ⟨200, true, none, some ⟨st.nextUserId, (jsTrim uname), freshToken⟩,
        some (10 - newUsers.length)⟩)

/-- JSON body (plus HTTP status) answered by `GET /api/auth/validate`. -/
structure ValidateResponse where
  status : Nat
  success : Bool
  valid : Option Bool
  error : Option String
  userId : Option Nat
  username : Option String
  userCreatedAt : Option Nat
  deriving Repr, DecidableEq

/-- `GET /api/auth/validate` from `src/server.js`.  A `none` token models an
absent query parameter; the empty string is falsy in JavaScript, so it also
takes the `Token required` branch. -/
def validate (st : DB) (token : Option String) : ValidateResponse :=
  match token with
  | none => ⟨400, false, none, some "Token required", none, none, none⟩
  | some t =>
    if t = "" then ⟨400, false, none, some "Token required", none, none, none⟩
    else
      match st.users.find? (fun w => w.token == t) with
      | none => ⟨401, false, some false, some "Invalid token", none, none, none⟩
      | some u => ⟨200, true, some true, none, some u.id, some u.username, some u.createdAt⟩

/-- One element of the `coffees` array answered by `GET /api/coffees`: the
stored record (`JSON.parse(c.data)`) merged with its `id` and `savedAt`
(`created_at`) fields. -/
structure CoffeeOut where
  id : Nat
  data : String
  savedAt : Nat
  deriving Repr, DecidableEq

/-- JSON body (plus HTTP status) answered by `GET /api/coffees`. -/
structure ListResponse where
  status : Nat
  success : Bool
  error : Option String
  coffees : Option (List CoffeeOut)
  deriving Repr, DecidableEq

/-- Insert a row into a list kept sorted by `created_at` descending. -/
def insertDesc (r : CoffeeRow) : List CoffeeRow → List CoffeeRow
  | [] => [r]
  | x :: xs => if x.createdAt ≤ r.createdAt then r :: x :: xs else x :: insertDesc r xs

/-- `ORDER BY created_at DESC` of the coffee queries. -/
def sortDesc : List CoffeeRow → List CoffeeRow
  | [] => []
  | r :: rs => insertDesc r (sortDesc rs)

/-- `GET /api/coffees` from `src/server.js`: token check, then
`SELECT id, data, created_at FROM coffees WHERE user_id = ? ORDER BY
created_at DESC`, each row shaped as `{ id, ...JSON.parse(data), savedAt }`. -/
def listCoffees (st : DB) (token : Option String) : ListResponse :=
  match token with
  | none => ⟨401, false, some "Unauthorized", none⟩
  | some t =>
    if t = "" then ⟨401, false, some "Unauthorized", none⟩
    else
      match st.users.find? (fun w => w.token == t) with
      | none => ⟨401, false, some "Invalid token", none⟩
      | some u =>
        ⟨200, true, none,
          some (((sortDesc (st.coffees.filter (fun r => r.userId == u.id)))).map
            (fun r => ⟨r.id, r.data, r.createdAt⟩))⟩

/-- One primitive database statement issued by `POST /api/coffees`. -/
inductive DbOp where
  | deleteCoffees (userId : Nat)
  | insertCoffee (userId : Nat) (data : String)
  deriving Repr, DecidableEq

/-- Effect of one primitive statement on the state.  `DELETE` touches no
timestamp; each `INSERT` consumes an id and a clock tick. -/
def applyOp (st : DB) : DbOp → DB
  | .deleteCoffees uid =>
    { st with coffees := st.coffees.filter (fun r => r.userId != uid) }
  | .insertCoffee uid d =>
    { st with
        coffees := st.coffees ++ [⟨st.nextCoffeeId, uid, d, st.clock⟩]
        nextCoffeeId := st.nextCoffeeId + 1
        clock := st.clock + 1 }

/-- Run a sequence of primitive statements. -/
def applyOps (st : DB) (ops : List DbOp) : DB := ops.foldl applyOp st

/-- The statement sequence of `POST /api/coffees`: an unconditional
`DELETE FROM coffees WHERE user_id = ?` followed, when the submitted list
is present and non-empty, by one `INSERT` per element.  No transaction
wraps the sequence. -/
def replaceOps (uid : Nat) (coffees : Option (List String)) : List DbOp :=
  DbOp.deleteCoffees uid ::
    (match coffees with
     | some cs => if 0 < cs.length then cs.map (DbOp.insertCoffee uid) else []
     | none => [])

/-- JSON body (plus HTTP status) answered by `POST /api/coffees`. -/
structure SaveResponse where
  status : Nat
  success : Bool
  error : Option String
  saved : Option Nat
  deriving Repr, DecidableEq

/-- `POST /api/coffees` from `src/server.js`: token check, then the
delete-and-insert sequence, answering `saved: coffees?.length || 0`. -/
def replaceCoffees (st : DB) (token : Option String)
    (coffees : Option (List String)) : DB × SaveResponse :=
  match token with
  | none => (st, ⟨401, false, some "Unauthorized", none⟩)
  | some t =>
    if t = "" then (st, ⟨401, false, some "Unauthorized", none⟩)
    else
      match st.users.find? (fun w => w.token == t) with
      | none => (st, ⟨401, false, some "Invalid token", none⟩)
      | some u =>
        (applyOps st (replaceOps u.id coffees),
         ⟨200, true, none,
          some (match coffees with | some cs => cs.length | none => 0)⟩)

/-- The longest prefix of a character list that ends at its last closing
brace, `none` when it has no closing brace. -/
def upToLastClose : List Char → Option (List Char)
  | [] => none
  | c :: rest =>
    match upToLastClose rest with
    | some tail => some (c :: tail)
    | none => if c = cbrace then some [c] else none

/-- The span matched by the regular expression of `src/server.js` line 413
(an opening brace, a greedy any-character run, a closing brace): the
substring from the first opening brace through the last closing brace after
it, `none` when no such span exists. -/
def greedyBraceMatchList (cs : List Char) : Option (List Char) :=
  upToLastClose (cs.dropWhile (fun c => c != obrace))

/-- `text.match(...)[0]` of `src/server.js` line 413, on strings. -/
def greedyBraceMatch (s : String) : Option String :=
  (greedyBraceMatchList s.data).map String.mk

/-- Modelled from the spec: drop a leading markdown code fence (three
backticks, optionally a `json` language tag, then whitespace) when present.
`src/server.js` itself performs no such stripping; this definition follows
the spec's words for comparison with the code's behaviour. -/
def dropLeadingFence (cs : List Char) : List Char :=
  if cs.take 3 = [btick, btick, btick] then
    (if (cs.drop 3).take 4 = ['j', 's', 'o', 'n'] then (cs.drop 3).drop 4
     else cs.drop 3).dropWhile Char.isWhitespace
  else cs

/-- Modelled from the spec: drop a trailing markdown code fence (three
backticks, possibly followed by trailing whitespace) when present. -/
def dropTrailingFence (cs : List Char) : List Char :=
  if (cs.reverse.dropWhile Char.isWhitespace).take 3 = [btick, btick, btick] then
    ((cs.reverse.dropWhile Char.isWhitespace).drop 3).reverse
  else cs

/-- Modelled from the spec: strip markdown code-fence wrapping, when
present, from the model's reply text. -/
def stripCodeFence (s : String) : String :=
  String.mk (dropTrailingFence (dropLeadingFence s.data))

/-- The seven-field JSON object the analyze prompt requests, as produced by
`JSON.parse`: each field either absent or a string (possibly empty). -/
structure CoffeeFields where
  name : Option String
  origin : Option String
  process : Option String
  cultivar : Option String
  altitude : Option String
  roaster : Option String
  tastingNotes : Option String
  deriving Repr, DecidableEq

/-- The `data` object of a successful analyze response, after defaulting. -/
structure NormalizedCoffee where
  name : String
  origin : String
  process : String
  cultivar : String
  altitude : String
  roaster : String
  tastingNotes : String
  addedDate : String
  deriving Repr, DecidableEq

/-- JavaScript `x || d` on an optional string field: absent and the empty
string are falsy. -/
def jsOrDefault : Option String → String → String
  | none, d => d
  | some s, d => if s = "" then d else s

/-- The field defaulting of `src/server.js` lines 424-431, stamped with the
current time (`new Date().toISOString()`) passed as `now`. -/
def normalizeCoffee (c : CoffeeFields) (now : String) : NormalizedCoffee :=
  { name := jsOrDefault c.name "Unknown"
    origin := jsOrDefault c.origin "Unknown"
    process := jsOrDefault c.process "washed"
    cultivar := jsOrDefault c.cultivar "Unknown"
    altitude := jsOrDefault c.altitude "1500"
    roaster := jsOrDefault c.roaster "Unknown"
    tastingNotes := jsOrDefault c.tastingNotes "No notes"
    addedDate := now }

/-- What the `fetch` to the external AI service came back with: the HTTP
success flag, the parsed `error.message` (if any), and `content[0].text`
(`none` when the reply has no first text block, in which case the handler's
property access throws). -/
structure UpstreamReply where
  ok : Bool
  errorMessage : Option String
  firstTextBlock : Option String
  deriving Repr, DecidableEq

/-- JSON body (plus HTTP status) answered by `POST /api/analyze-coffee`. -/
structure AnalyzeResponse where
  status : Nat
  success : Bool
  error : Option String
  data : Option NormalizedCoffee
  deriving Repr, DecidableEq

/-- The single generic failure answer of the analyze handler's `catch`. -/
def analyzeGenericError : AnalyzeResponse :=
  ⟨500, false, some "Analysis failed. Please try again.", none⟩

/-- `POST /api/analyze-coffee` from `src/server.js`.  `reply` is what the
external call would return (unused when the call is never made) and
`parseJson` models `JSON.parse` on the extracted span (`none` when it
throws).  The second component records whether the external service was
called. -/
def analyzeCoffee (imageData : Option String) (reply : UpstreamReply)
    (parseJson : String → Option CoffeeFields) (now : String) :
    AnalyzeResponse × Bool :=
  match imageData with
  | none => (⟨400, false, some "Image data required", none⟩, false)
  | some img =>
    if img = "" then (⟨400, false, some "Image data required", none⟩, false)
    else if reply.ok = false then (analyzeGenericError, true)
    else
      match reply.firstTextBlock with
      | none => (analyzeGenericError, true)
      | some text =>
        match greedyBraceMatch text with
        | none => (analyzeGenericError, true)
        | some span =>
          match parseJson span with
          | none => (analyzeGenericError, true)
          | some fields => (⟨200, true, none, some (normalizeCoffee fields now)⟩, true)

/-! ### Helper lemmas -/

lemma filter_eq_after_filter_ne (l : List CoffeeRow) (uid : Nat) :
    ((l.filter fun r => r.userId != uid).filter fun r => r.userId == uid) = [] := by
  induction l with
  | nil => rfl
  | cons a l ih =>
    by_cases h : a.userId = uid
    · simp [List.filter_cons, h, ih]
    · simp [List.filter_cons, h, ih]

lemma filter_ne_after_filter_ne (l : List CoffeeRow) (uid : Nat) :
    ((l.filter fun r => r.userId != uid).filter fun r => r.userId != uid) =
      l.filter fun r => r.userId != uid := by
  induction l with
  | nil => rfl
  | cons a l ih =>
    by_cases h : a.userId = uid
    · simp [List.filter_cons, h, ih]
    · simp [List.filter_cons, h, ih]

lemma find?_append_last {α : Type} (p : α → Bool) (l : List α) (a : α)
    (h : ∀ x ∈ l, p x = false) :
    (l ++ [a]).find? p = if p a then some a else none := by
  have hl : l.find? p = none := List.find?_eq_none.mpr (fun x hx => by simp [h x hx])
  rw [List.find?_append, hl]
  cases hp : p a <;> simp [List.find?, hp]

lemma upToLastClose_eq_none {cs : List Char} (h : ∀ c ∈ cs, c ≠ cbrace) :
    upToLastClose cs = none := by
  induction cs with
  | nil => rfl
  | cons c rest ih =>
    have hc : c ≠ cbrace := h c (by simp)
    have hrest : upToLastClose rest = none := ih (fun x hx => h x (by simp [hx]))
    simp [upToLastClose, hrest, hc]

lemma upToLastClose_append {cs suf : List Char} (h : ∀ c ∈ suf, c ≠ cbrace) :
    upToLastClose (cs ++ suf) = upToLastClose cs := by
  induction cs with
  | nil => simp [upToLastClose_eq_none h, upToLastClose]
  | cons c rest ih => simp [upToLastClose, ih]

lemma greedyList_append_right {cs suf : List Char}
    (hO : ∀ c ∈ suf, c ≠ obrace) (hC : ∀ c ∈ suf, c ≠ cbrace) :
    greedyBraceMatchList (cs ++ suf) = greedyBraceMatchList cs := by
  unfold greedyBraceMatchList
  rw [List.dropWhile_append]
  by_cases hcs : (List.dropWhile (fun c => c != obrace) cs).isEmpty = true
  · rw [if_pos hcs]
    have h2 : List.dropWhile (fun c => c != obrace) suf = [] :=
      List.dropWhile_eq_nil_iff.mpr (fun x hx => by simpa using hO x hx)
    rw [List.isEmpty_iff] at hcs
    rw [h2, hcs]
  · rw [if_neg hcs]
    exact upToLastClose_append hC

lemma greedyList_cons_of_ne {c : Char} {cs : List Char} (h : c ≠ obrace) :
    greedyBraceMatchList (c :: cs) = greedyBraceMatchList cs := by
  unfold greedyBraceMatchList
  rw [List.dropWhile_cons]
  simp [h]

lemma greedyList_append_left {pre cs : List Char} (h : ∀ c ∈ pre, c ≠ obrace) :
    greedyBraceMatchList (pre ++ cs) = greedyBraceMatchList cs := by
  induction pre with
  | nil => rfl
  | cons a pre ih =>
    rw [List.cons_append, greedyList_cons_of_ne (h a (by simp))]
    exact ih (fun x hx => h x (by simp [hx]))

lemma ws_ne_obrace {c : Char} (h : c.isWhitespace = true) : c ≠ obrace := by
  rintro rfl
  exact absurd h (by decide)

lemma ws_ne_cbrace {c : Char} (h : c.isWhitespace = true) : c ≠ cbrace := by
  rintro rfl
  exact absurd h (by decide)

lemma greedyList_dropWhile_ws (l : List Char) :
    greedyBraceMatchList (l.dropWhile Char.isWhitespace) = greedyBraceMatchList l := by
  conv_rhs => rw [← List.takeWhile_append_dropWhile Char.isWhitespace l]
  exact (greedyList_append_left
    (fun c hc => ws_ne_obrace (List.mem_takeWhile_imp hc))).symm

lemma greedyList_dropLeadingFence (cs : List Char) :
    greedyBraceMatchList (dropLeadingFence cs) = greedyBraceMatchList cs := by
  unfold dropLeadingFence
  by_cases h : cs.take 3 = [btick, btick, btick]
  · rw [if_pos h]
    have hpre : ∀ c ∈ cs.take 3, c ≠ obrace := by
      intro c hc
      rw [h] at hc
      simp at hc
      subst hc
      decide
    by_cases hj : (cs.drop 3).take 4 = ['j', 's', 'o', 'n']
    · rw [if_pos hj, greedyList_dropWhile_ws]
      have hpre2 : ∀ c ∈ (cs.drop 3).take 4, c ≠ obrace := by
        intro c hc
        rw [hj] at hc
        simp at hc
        rcases hc with rfl | rfl | rfl | rfl <;> decide
      conv_rhs => rw [← List.take_append_drop 3 cs]
      rw [greedyList_append_left hpre]
      conv_rhs => rw [← List.take_append_drop 4 (cs.drop 3)]
      rw [greedyList_append_left hpre2]
    · rw [if_neg hj, greedyList_dropWhile_ws]
      conv_rhs => rw [← List.take_append_drop 3 cs]
      rw [greedyList_append_left hpre]
  · rw [if_neg h]

lemma greedyList_dropTrailingFence (cs : List Char) :
    greedyBraceMatchList (dropTrailingFence cs) = greedyBraceMatchList cs := by
  unfold dropTrailingFence
  by_cases h : (cs.reverse.dropWhile Char.isWhitespace).take 3 = [btick, btick, btick]
  · rw [if_pos h]
    have base : cs = (cs.reverse.takeWhile Char.isWhitespace ++
        ((cs.reverse.dropWhile Char.isWhitespace).take 3 ++
         (cs.reverse.dropWhile Char.isWhitespace).drop 3)).reverse := by
      rw [List.take_append_drop, List.takeWhile_append_dropWhile, List.reverse_reverse]
    have e3 : cs = ((cs.reverse.dropWhile Char.isWhitespace).drop 3).reverse ++
        (((cs.reverse.dropWhile Char.isWhitespace).take 3).reverse ++
          (cs.reverse.takeWhile Char.isWhitespace).reverse) := by
      conv_lhs => rw [base]
      rw [List.reverse_append, List.reverse_append, List.append_assoc]
    conv_rhs => rw [e3]
    rw [greedyList_append_right]
    · intro c hc
      rcases List.mem_append.mp hc with h1 | h2
      · rw [h] at h1
        simp at h1
        subst h1
        decide
      · exact ws_ne_obrace (List.mem_takeWhile_imp (List.mem_reverse.mp h2))
    · intro c hc
      rcases List.mem_append.mp hc with h1 | h2
      · rw [h] at h1
        simp at h1
        subst h1
        decide
      · exact ws_ne_cbrace (List.mem_takeWhile_imp (List.mem_reverse.mp h2))
  · rw [if_neg h]

/-- Run a sequence of registration requests, each with the username it
submits and the fresh token `uuidv4()` would produce for it, collecting the
responses. -/
def registerTrace : DB → List (String × String) → DB × List RegisterResponse
  | st, [] => (st, [])
  | st, (u, tok) :: rest =>
    ((registerTrace (register st (some u) tok).1 rest).1,
     (register st (some u) tok).2 :: (registerTrace (register st (some u) tok).1 rest).2)

lemma registerTrace_cons (st : DB) (u tok : String) (rest : List (String × String)) :
    registerTrace st ((u, tok) :: rest) =
      ((registerTrace (register st (some u) tok).1 rest).1,
       (register st (some u) tok).2 ::
         (registerTrace (register st (some u) tok).1 rest).2) := rfl

lemma register_users_length_le (st : DB) (u : Option String) (tok : String)
    (h : st.users.length ≤ 10) : ((register st u tok).1).users.length ≤ 10 := by
  cases u with
  | none => exact h
  | some uname =>
    unfold register
    dsimp only
    split
    · exact h
    · split
      · exact h
      · split
        · exact h
        · split
          · exact h
          · rename_i h1 h2 h3 h4
            simp only [List.length_append, List.length_cons, List.length_nil]
            omega

lemma registerTrace_users_length_le (inps : List (String × String)) :
    ∀ st : DB, st.users.length ≤ 10 →
      ((registerTrace st inps).1).users.length ≤ 10 := by
  induction inps with
  | nil => intro st h; exact h
  | cons p rest ih =>
    obtain ⟨u, tok⟩ := p
    intro st h
    rw [registerTrace_cons]
    exact ih _ (register_users_length_le st (some u) tok h)

/-- A registration from a state below the cap, with a valid username, no
case-insensitive duplicate and a fresh token, succeeds and appends the new
user. -/
lemma register_success (st : DB) (u tok : String)
    (hv : 2 ≤ (jsTrim u).length)
    (hcap : st.users.length < 10)
    (hdup : ∀ w ∈ st.users, lowerAscii w.username ≠ lowerAscii (jsTrim u))
    (htok : ∀ w ∈ st.users, w.token ≠ tok) :
    register st (some u) tok =
      ({ st with
          users := st.users ++ [⟨st.nextUserId, (jsTrim u), tok, st.clock⟩]
          nextUserId := st.nextUserId + 1
          clock := st.clock + 1 },
       ⟨200, true, none, some ⟨st.nextUserId, (jsTrim u), tok⟩,
        some (10 - (st.users.length + 1))⟩) := by
  have hc1 : ¬((jsTrim u).length < 2) := by omega
  have hc2 : ¬(10 ≤ st.users.length) := by omega
  have hc3 : st.users.any (fun w => lowerAscii w.username == lowerAscii (jsTrim u)) = false := by
    rw [List.any_eq_false]
    intro w hw
    simpa using hdup w hw
  have hc4 : st.users.any (fun w => w.token == tok) = false := by
    rw [List.any_eq_false]
    intro w hw
    simpa using htok w hw
  unfold register
  dsimp only
  rw [if_neg hc1, if_neg hc2]
  simp [hc3, hc4]

/-- A run of pairwise-distinct valid registrations from a state with room
for all of them: every request succeeds and the remaining-spots counter of
the i-th response is `10 - (initial count + i + 1)`. -/
lemma registerTrace_success (inps : List (String × String)) :
    ∀ st : DB,
      (∀ p ∈ inps, 2 ≤ (jsTrim p.1).length) →
      (inps.Pairwise fun p q => lowerAscii (jsTrim p.1) ≠ lowerAscii (jsTrim q.1) ∧ p.2 ≠ q.2) →
      (∀ p ∈ inps, ∀ w ∈ st.users,
        lowerAscii w.username ≠ lowerAscii (jsTrim p.1) ∧ w.token ≠ p.2) →
      st.users.length + inps.length ≤ 10 →
      ((registerTrace st inps).1.users.length = st.users.length + inps.length ∧
       ∀ i, i < inps.length →
         ∃ r, ((registerTrace st inps).2)[i]? = some r ∧
           r.status = 200 ∧ r.success = true ∧
           r.spotsRemaining = some (10 - (st.users.length + i + 1))) := by
  induction inps with
  | nil =>
    intro st _ _ _ _
    exact ⟨by simp [registerTrace], fun i hi => absurd hi (by simp)⟩
  | cons p rest ih =>
    obtain ⟨u, tok⟩ := p
    intro st hval hpw hnew hcap
    have hv : 2 ≤ (jsTrim u).length := hval (u, tok) (by simp)
    have hlen : st.users.length + (rest.length + 1) ≤ 10 := by
      simpa using hcap
    have hreg := register_success st u tok hv (by omega)
      (fun w hw => (hnew (u, tok) (by simp) w hw).1)
      (fun w hw => (hnew (u, tok) (by simp) w hw).2)
    have hhead := List.pairwise_cons.mp hpw
    rw [registerTrace_cons, hreg]
    dsimp only
    have hstep := ih { st with
        users := st.users ++ [⟨st.nextUserId, (jsTrim u), tok, st.clock⟩]
        nextUserId := st.nextUserId + 1
        clock := st.clock + 1 }
      (fun q hq => hval q (by simp [hq]))
      hhead.2
      (by
        intro q hq w hw
        rcases List.mem_append.mp hw with hold | hnewu
        · exact hnew q (by simp [hq]) w hold
        · have hq' := hhead.1 q hq
          have hw' : w = ⟨st.nextUserId, (jsTrim u), tok, st.clock⟩ := by simpa using hnewu
          subst hw'
          exact ⟨hq'.1, hq'.2⟩)
      (by
        simp only [List.length_append, List.length_cons, List.length_nil]
        omega)
    obtain ⟨ihlen, ihresp⟩ := hstep
    constructor
    · rw [ihlen]
      simp only [List.length_append, List.length_cons, List.length_nil]
      omega
    · intro i hi
      cases i with
      | zero =>
        refine ⟨_, List.getElem?_cons_zero, rfl, rfl, ?_⟩
        simp
      | succ j =>
        have hj : j < rest.length := by
          simpa using Nat.lt_of_succ_lt_succ hi
        obtain ⟨r, hr, hs, hsc, hsp⟩ := ihresp j hj
        refine ⟨r, ?_, hs, hsc, ?_⟩
        · rw [List.getElem?_cons_succ]
          exact hr
        · rw [hsp]
          congr 1
          simp only [List.length_append, List.length_cons, List.length_nil]
          omega

lemma greedyBraceMatch_strip (s : String) :
    greedyBraceMatch (stripCodeFence s) = greedyBraceMatch s := by
  show (greedyBraceMatchList (dropTrailingFence (dropLeadingFence s.data))).map String.mk =
    (greedyBraceMatchList s.data).map String.mk
  rw [greedyList_dropTrailingFence, greedyList_dropLeadingFence]

/-! ### Claim theorems -/

/-- C6: for every analyze request whose `imageData` field is absent, the
handler answers HTTP 400 and the external AI service is not called (the
second component of the result, the called-upstream flag, is `false`); the
handler touches no other state. -/
theorem c6_missing_image (reply : UpstreamReply)
    (parseJson : String → Option CoffeeFields) (now : String) :
    analyzeCoffee none reply parseJson now =
      (⟨400, false, some "Image data required", none⟩, false) := rfl

/-- C7: on a successful upstream reply the handler takes the text of the
first content block and locates the first-brace-to-last-brace span exactly
where the spec's strip-code-fences-then-match pipeline locates it (fence
stripping never changes the located span), parses that span, and answers
the generic 500 error when no span exists or parsing fails, never a raw
parse exception. -/
theorem c7_parse_pipeline :
    (∀ s : String, greedyBraceMatch (stripCodeFence s) = greedyBraceMatch s) ∧
    (∀ (img : String) (reply : UpstreamReply)
        (parseJson : String → Option CoffeeFields) (now text : String),
      img ≠ "" → reply.ok = true → reply.firstTextBlock = some text →
      (greedyBraceMatch text = none →
        analyzeCoffee (some img) reply parseJson now = (analyzeGenericError, true)) ∧
      (∀ span, greedyBraceMatch text = some span → parseJson span = none →
        analyzeCoffee (some img) reply parseJson now = (analyzeGenericError, true)) ∧
      (∀ span fields, greedyBraceMatch text = some span → parseJson span = some fields →
        analyzeCoffee (some img) reply parseJson now =
          (⟨200, true, none, some (normalizeCoffee fields now)⟩, true))) := by
  constructor
  · exact greedyBraceMatch_strip
  · intro img reply parseJson now text hi hok htext
    refine ⟨?_, ?_, ?_⟩
    · intro hm
      simp [analyzeCoffee, hi, hok, htext, hm]
    · intro span hm hp
      simp [analyzeCoffee, hi, hok, htext, hm, hp]
    · intro span fields hm hp
      simp [analyzeCoffee, hi, hok, htext, hm, hp]

theorem c7_parse_pipeline_witness :
    greedyBraceMatch (stripCodeFence "x") = greedyBraceMatch "x" ∧
    analyzeCoffee (some "img") ⟨true, none, some "no braces here"⟩ (fun _ => none) "T" =
      (analyzeGenericError, true) :=
  ⟨c7_parse_pipeline.1 "x",
   (c7_parse_pipeline.2 "img" ⟨true, none, some "no braces here"⟩ (fun _ => none) "T"
     "no braces here" (by decide) rfl rfl).1 (by decide)⟩

/-- C8 (amended): every missing or falsy field of the parsed object is
replaced by its default — `process` by `"washed"`, `altitude` by `"1500"`,
`name`, `origin`, `cultivar` and `roaster` by `"Unknown"`, and
`tastingNotes` by `"No notes"` (not `"Unknown"`) — present non-empty fields
are kept, and the result is stamped with the current timestamp. -/
theorem c8_field_defaults (c : CoffeeFields) (now : String) :
    ((c.process = none ∨ c.process = some "") → (normalizeCoffee c now).process = "washed") ∧
    (∀ s, c.process = some s → s ≠ "" → (normalizeCoffee c now).process = s) ∧
    ((c.altitude = none ∨ c.altitude = some "") → (normalizeCoffee c now).altitude = "1500") ∧
    (∀ s, c.altitude = some s → s ≠ "" → (normalizeCoffee c now).altitude = s) ∧
    ((c.name = none ∨ c.name = some "") → (normalizeCoffee c now).name = "Unknown") ∧
    ((c.origin = none ∨ c.origin = some "") → (normalizeCoffee c now).origin = "Unknown") ∧
    ((c.cultivar = none ∨ c.cultivar = some "") → (normalizeCoffee c now).cultivar = "Unknown") ∧
    ((c.roaster = none ∨ c.roaster = some "") → (normalizeCoffee c now).roaster = "Unknown") ∧
    ((c.tastingNotes = none ∨ c.tastingNotes = some "") →
      (normalizeCoffee c now).tastingNotes = "No notes") ∧
    (normalizeCoffee c now).addedDate = now := by
  refine ⟨?_, ?_, ?_, ?_, ?_, ?_, ?_, ?_, ?_, rfl⟩
  · rintro (h | h) <;> simp [normalizeCoffee, jsOrDefault, h]
  · intro s hs hne
    simp [normalizeCoffee, jsOrDefault, hs, hne]
  · rintro (h | h) <;> simp [normalizeCoffee, jsOrDefault, h]
  · intro s hs hne
    simp [normalizeCoffee, jsOrDefault, hs, hne]
  · rintro (h | h) <;> simp [normalizeCoffee, jsOrDefault, h]
  · rintro (h | h) <;> simp [normalizeCoffee, jsOrDefault, h]
  · rintro (h | h) <;> simp [normalizeCoffee, jsOrDefault, h]
  · rintro (h | h) <;> simp [normalizeCoffee, jsOrDefault, h]
  · rintro (h | h) <;> simp [normalizeCoffee, jsOrDefault, h]

theorem c8_field_defaults_witness :
    (normalizeCoffee ⟨none, some "Ethiopia", some "", none, none, none, none⟩ "T").process =
      "washed" ∧
    (normalizeCoffee ⟨none, some "Ethiopia", some "", none, none, none, none⟩ "T").addedDate =
      "T" :=
  ⟨(c8_field_defaults ⟨none, some "Ethiopia", some "", none, none, none, none⟩ "T").1
      (Or.inr rfl),
   (c8_field_defaults ⟨none, some "Ethiopia", some "", none, none, none, none⟩
      "T").2.2.2.2.2.2.2.2.2⟩

/-- C8 counterexample: the seven-field object with every field missing is
normalized with `tastingNotes = "No notes"`, not `"Unknown"`, refuting
"all other missing fields are replaced by Unknown". -/
theorem c8_counterexample :
    (normalizeCoffee ⟨none, none, none, none, none, none, none⟩ "T").tastingNotes =
      "No notes" ∧
    ¬(normalizeCoffee ⟨none, none, none, none, none, none, none⟩ "T").tastingNotes =
      "Unknown" := by
  decide

/-- C9: every upstream failure is answered with the one generic 500
message, independent of the upstream error content: any two failure replies
produce identical caller-facing responses. -/
theorem c9_generic_upstream_error :
    (∀ (img : String) (reply : UpstreamReply)
        (parseJson : String → Option CoffeeFields) (now : String),
      img ≠ "" → reply.ok = false →
      analyzeCoffee (some img) reply parseJson now = (analyzeGenericError, true)) ∧
    (∀ (img : String) (r1 r2 : UpstreamReply)
        (parseJson : String → Option CoffeeFields) (now : String),
      img ≠ "" → r1.ok = false → r2.ok = false →
      analyzeCoffee (some img) r1 parseJson now =
        analyzeCoffee (some img) r2 parseJson now) := by
  constructor
  · intro img reply parseJson now hi hok
    simp [analyzeCoffee, hi, hok]
  · intro img r1 r2 parseJson now hi h1 h2
    simp [analyzeCoffee, hi, h1, h2]

theorem c9_generic_upstream_error_witness :
    analyzeCoffee (some "img") ⟨false, some "upstream secret detail", some "x"⟩
        (fun _ => none) "T" = (analyzeGenericError, true) ∧
    analyzeCoffee (some "img") ⟨false, some "secret A", none⟩ (fun _ => none) "T" =
      analyzeCoffee (some "img") ⟨false, some "secret B", some "y"⟩ (fun _ => none) "T" :=
  ⟨c9_generic_upstream_error.1 "img" ⟨false, some "upstream secret detail", some "x"⟩
      (fun _ => none) "T" (by decide) rfl,
   c9_generic_upstream_error.2 "img" ⟨false, some "secret A", none⟩
      ⟨false, some "secret B", some "y"⟩ (fun _ => none) "T" (by decide) rfl rfl⟩

/-- C2 (amended): for every sequence of registrations with valid usernames
(trimmed length at least 2) that are pairwise distinct case-insensitively,
with fresh distinct tokens, run from the empty initial state, each of the
first (at most 10) requests succeeds and the i-th response carries
`spotsRemaining = 9 - i`, decreasing to 0; every registration attempted
with a valid username while 10 users exist fails with HTTP 403 and
`spotsRemaining 0` and leaves the state unchanged; and no sequence of
registrations ever produces more than 10 users. -/
theorem c2_registration_cap :
    (∀ inps : List (String × String),
      (∀ p ∈ inps, 2 ≤ (jsTrim p.1).length) →
      (inps.Pairwise fun p q => lowerAscii (jsTrim p.1) ≠ lowerAscii (jsTrim q.1) ∧ p.2 ≠ q.2) →
      inps.length ≤ 10 →
      ∀ i, i < inps.length →
        ∃ r, ((registerTrace initialDB inps).2)[i]? = some r ∧
          r.status = 200 ∧ r.success = true ∧ r.spotsRemaining = some (9 - i)) ∧
    (∀ (st : DB) (u tok : String), 2 ≤ (jsTrim u).length → 10 ≤ st.users.length →
      register st (some u) tok =
        (st, ⟨403, false, some "Tester limit reached (10/10)", none, some 0⟩)) ∧
    (∀ inps : List (String × String),
      ((registerTrace initialDB inps).1).users.length ≤ 10) := by
  have h0 : initialDB.users.length = 0 := rfl
  refine ⟨?_, ?_, ?_⟩
  · intro inps hval hpw hlen i hi
    obtain ⟨r, hr, h1, h2, h3⟩ := (registerTrace_success inps initialDB hval hpw
      (fun p _ w hw => absurd hw (List.not_mem_nil w))
      (by omega)).2 i hi
    refine ⟨r, hr, h1, h2, ?_⟩
    rw [h3]
    congr 1
    omega
  · intro st u tok hv hcap
    unfold register
    dsimp only
    rw [if_neg (by omega), if_pos hcap]
  · intro inps
    exact registerTrace_users_length_le inps initialDB (by omega)

/-- C2 counterexample: a sequence of two registrations whose usernames both
have trimmed length at least 2 in which the second request nevertheless
fails (409 conflict, not success), refuting "the first 10 registrations
succeed" as stated for every sequence of valid usernames. -/
theorem c2_counterexample :
    (registerTrace initialDB [("ab", "t1"), ("ab", "t2")]).2.map
        (fun r => r.status) = [200, 409] ∧
    2 ≤ (jsTrim "ab").length := by
  decide

def capInps : List (String × String) :=
  [("u1", "t1"), ("u2", "t2"), ("u3", "t3"), ("u4", "t4"), ("u5", "t5"),
   ("u6", "t6"), ("u7", "t7"), ("u8", "t8"), ("u9", "t9"), ("ua", "ta")]

theorem c2_registration_cap_witness :
    (∃ r, ((registerTrace initialDB capInps).2)[9]? = some r ∧
      r.status = 200 ∧ r.success = true ∧ r.spotsRemaining = some (9 - 9)) ∧
    register (registerTrace initialDB capInps).1 (some "eleventh") "tb" =
      ((registerTrace initialDB capInps).1,
       ⟨403, false, some "Tester limit reached (10/10)", none, some 0⟩) ∧
    ((registerTrace initialDB capInps).1).users.length ≤ 10 :=
  ⟨c2_registration_cap.1 capInps (by decide) (by decide) (by decide) 9 (by decide),
   c2_registration_cap.2.1 (registerTrace initialDB capInps).1 "eleventh" "tb"
     (by decide) (by decide),
   c2_registration_cap.2.2 capInps⟩

/-- C4 (amended): while fewer than 10 users exist, a registration whose
trimmed username equals a registered username after ASCII-lowercasing both
sides fails with HTTP 409 and creates no user; when the 10-user cap is
already reached the attempt fails with the 403 capacity error instead of a
409 (the capacity check runs first), and again creates no user. -/
theorem c4_case_insensitive_conflict :
    (∀ (st : DB) (u : User) (v tok : String),
      u ∈ st.users →
      lowerAscii (jsTrim v) = lowerAscii u.username →
      2 ≤ (jsTrim v).length →
      st.users.length < 10 →
      register st (some v) tok =
        (st, ⟨409, false, some "Username already taken", none, none⟩)) ∧
    (∀ (st : DB) (v tok : String),
      2 ≤ (jsTrim v).length → 10 ≤ st.users.length →
      register st (some v) tok =
        (st, ⟨403, false, some "Tester limit reached (10/10)", none, some 0⟩)) := by
  constructor
  · intro st u v tok hu hlow hv hcap
    have hany : st.users.any (fun w => lowerAscii w.username == lowerAscii (jsTrim v)) = true :=
      List.any_eq_true.mpr ⟨u, hu, by simp [hlow]⟩
    unfold register
    dsimp only
    rw [if_neg (by omega), if_neg (by omega)]
    simp [hany]
  · intro st v tok hv hcap
    unfold register
    dsimp only
    rw [if_neg (by omega), if_pos hcap]

def fullInps : List (String × String) :=
  [("Coffee", "t1"), ("Donut", "t2"), ("Espresso", "t3"), ("Flatwhite", "t4"),
   ("Gibraltar", "t5"), ("Hario", "t6"), ("Icedlatte", "t7"), ("Joe", "t8"),
   ("Kona", "t9"), ("Lungo", "ta")]

/-- C4 counterexample: in a reachable state with 10 users among them
"Coffee", registering "COFFEE" — a case-insensitive duplicate of a
registered username — answers 403 (capacity), not the 409 conflict the
claim promises for every such attempt. -/
theorem c4_counterexample :
    (register (registerTrace initialDB fullInps).1 (some "COFFEE") "tb").2.status = 403 ∧
    ¬(register (registerTrace initialDB fullInps).1 (some "COFFEE") "tb").2.status = 409 ∧
    (registerTrace initialDB fullInps).1.users.any
      (fun w => lowerAscii w.username == lowerAscii (jsTrim "COFFEE")) = true := by
  decide

theorem c4_case_insensitive_conflict_witness :
    register (registerTrace initialDB [("Coffee", "t1")]).1 (some "COFFEE") "t2" =
      ((registerTrace initialDB [("Coffee", "t1")]).1,
       ⟨409, false, some "Username already taken", none, none⟩) :=
  c4_case_insensitive_conflict.1 (registerTrace initialDB [("Coffee", "t1")]).1
    ⟨1, "Coffee", "t1", 0⟩ "COFFEE" "t2" (by decide) (by decide) (by decide) (by decide)

/-- C5: a token returned by a successful registration validates to the same
username and id; a presented token that no registration issued validates to
invalid with HTTP 401. -/
theorem c5_token_roundtrip :
    (∀ (st : DB) (un ft : String),
      2 ≤ (jsTrim un).length →
      st.users.length < 10 →
      (∀ w ∈ st.users, lowerAscii w.username ≠ lowerAscii (jsTrim un)) →
      (∀ w ∈ st.users, w.token ≠ ft) →
      ft ≠ "" →
      (register st (some un) ft).2.user = some ⟨st.nextUserId, (jsTrim un), ft⟩ ∧
      validate (register st (some un) ft).1 (some ft) =
        ⟨200, true, some true, none, some st.nextUserId, some (jsTrim un), some st.clock⟩) ∧
    (∀ (st : DB) (t : String), t ≠ "" → (∀ w ∈ st.users, w.token ≠ t) →
      validate st (some t) =
        ⟨401, false, some false, some "Invalid token", none, none, none⟩) := by
  constructor
  · intro st un ft hv hcap hdup htok hne
    rw [register_success st un ft hv hcap hdup htok]
    dsimp only
    refine ⟨rfl, ?_⟩
    have hfind : (st.users ++ [(⟨st.nextUserId, (jsTrim un), ft, st.clock⟩ : User)]).find?
        (fun w => w.token == ft) =
        some (⟨st.nextUserId, (jsTrim un), ft, st.clock⟩ : User) := by
      rw [find?_append_last (fun w => w.token == ft) st.users
        (⟨st.nextUserId, (jsTrim un), ft, st.clock⟩ : User)
        (fun w hw => by simpa using htok w hw)]
      simp
    unfold validate
    dsimp only
    rw [if_neg hne, hfind]
  · intro st t ht htok
    have hfind : st.users.find? (fun w => w.token == t) = none :=
      List.find?_eq_none.mpr (fun w hw => by simpa using htok w hw)
    unfold validate
    dsimp only
    rw [if_neg ht, hfind]

theorem c5_token_roundtrip_witness :
    ((register initialDB (some "Coffee") "t1").2.user =
        some ⟨initialDB.nextUserId, (jsTrim "Coffee"), "t1"⟩ ∧
      validate (register initialDB (some "Coffee") "t1").1 (some "t1") =
        ⟨200, true, some true, none, some initialDB.nextUserId, some ((jsTrim "Coffee")),
          some initialDB.clock⟩) ∧
    validate initialDB (some "zzz") =
      ⟨401, false, some false, some "Invalid token", none, none, none⟩ :=
  ⟨c5_token_roundtrip.1 initialDB "Coffee" "t1" (by decide) (by decide)
      (fun w hw => absurd hw (List.not_mem_nil w))
      (fun w hw => absurd hw (List.not_mem_nil w)) (by decide),
   c5_token_roundtrip.2 initialDB "zzz" (by decide)
     (fun w hw => absurd hw (List.not_mem_nil w))⟩

lemma listCoffees_eq (st : DB) (u : User) (t : String) (ht : t ≠ "")
    (hu : st.users.find? (fun w => w.token == t) = some u) :
    listCoffees st (some t) = ⟨200, true, none,
      some ((sortDesc (st.coffees.filter (fun r => r.userId == u.id))).map
        (fun r => ⟨r.id, r.data, r.createdAt⟩))⟩ := by
  unfold listCoffees
  dsimp only
  rw [if_neg ht, hu]

lemma replaceCoffees_eq (st : DB) (u : User) (t : String) (cs : Option (List String))
    (ht : t ≠ "") (hu : st.users.find? (fun w => w.token == t) = some u) :
    replaceCoffees st (some t) cs =
      (applyOps st (replaceOps u.id cs),
       ⟨200, true, none, some (match cs with | some l => l.length | none => 0)⟩) := by
  unfold replaceCoffees
  dsimp only
  rw [if_neg ht, hu]

/-- C1: for a user with a valid token, replacing the list with `[A, B]`
reports 2 saved and a subsequent list returns exactly those two records —
each stored blob merged with its id and save timestamp, newest first, so
content-equal to `[A, B]` as a permutation; a further replace with `[C]`
yields exactly `[C]` (prior records fully superseded), and a replace with
`[]` leaves the list empty. -/
theorem c1_replace_supersedes (st : DB) (u : User) (t A B C : String)
    (ht : t ≠ "") (hu : st.users.find? (fun w => w.token == t) = some u) :
    (replaceCoffees st (some t) (some [A, B])).2.saved = some 2 ∧
    listCoffees (replaceCoffees st (some t) (some [A, B])).1 (some t) =
      ⟨200, true, none,
        some [⟨st.nextCoffeeId + 1, B, st.clock + 1⟩, ⟨st.nextCoffeeId, A, st.clock⟩]⟩ ∧
    (((listCoffees (replaceCoffees st (some t) (some [A, B])).1 (some t)).coffees.getD
        []).map CoffeeOut.data).Perm [A, B] ∧
    listCoffees (replaceCoffees (replaceCoffees st (some t) (some [A, B])).1 (some t)
        (some [C])).1 (some t) =
      ⟨200, true, none, some [⟨st.nextCoffeeId + 2, C, st.clock + 2⟩]⟩ ∧
    listCoffees (replaceCoffees (replaceCoffees (replaceCoffees st (some t)
        (some [A, B])).1 (some t) (some [C])).1 (some t) (some [])).1 (some t) =
      ⟨200, true, none, some []⟩ := by
  have hAB := replaceCoffees_eq st u t (some [A, B]) ht hu
  have hst1 : (replaceCoffees st (some t) (some [A, B])).1 =
      { st with
          coffees := (st.coffees.filter fun r => r.userId != u.id) ++
            [⟨st.nextCoffeeId, u.id, A, st.clock⟩,
             ⟨st.nextCoffeeId + 1, u.id, B, st.clock + 1⟩]
          nextCoffeeId := st.nextCoffeeId + 2
          clock := st.clock + 2 } := by
    rw [hAB]
    simp [replaceOps, applyOps, applyOp]
  have hu1 : ((replaceCoffees st (some t) (some [A, B])).1).users.find?
      (fun w => w.token == t) = some u := by
    rw [hst1]
    exact hu
  have hfilter1 : ((replaceCoffees st (some t) (some [A, B])).1).coffees.filter
      (fun r => r.userId == u.id) =
      [⟨st.nextCoffeeId, u.id, A, st.clock⟩,
       ⟨st.nextCoffeeId + 1, u.id, B, st.clock + 1⟩] := by
    rw [hst1]
    dsimp only
    rw [List.filter_append, filter_eq_after_filter_ne]
    simp [List.filter_cons]
  have hsort1 : sortDesc [⟨st.nextCoffeeId, u.id, A, st.clock⟩,
      ⟨st.nextCoffeeId + 1, u.id, B, st.clock + 1⟩] =
      [⟨st.nextCoffeeId + 1, u.id, B, st.clock + 1⟩,
       ⟨st.nextCoffeeId, u.id, A, st.clock⟩] := by
    simp [sortDesc, insertDesc, Nat.add_one_le_iff, lt_self_iff_false]
  have hl1 : listCoffees (replaceCoffees st (some t) (some [A, B])).1 (some t) =
      ⟨200, true, none,
        some [⟨st.nextCoffeeId + 1, B, st.clock + 1⟩, ⟨st.nextCoffeeId, A, st.clock⟩]⟩ := by
    rw [listCoffees_eq _ u t ht hu1, hfilter1, hsort1]
    rfl
  have hC := replaceCoffees_eq (replaceCoffees st (some t) (some [A, B])).1 u t
    (some [C]) ht hu1
  have hst2 : (replaceCoffees (replaceCoffees st (some t) (some [A, B])).1 (some t)
      (some [C])).1 =
      { st with
          coffees := (st.coffees.filter fun r => r.userId != u.id) ++
            [⟨st.nextCoffeeId + 2, u.id, C, st.clock + 2⟩]
          nextCoffeeId := st.nextCoffeeId + 3
          clock := st.clock + 3 } := by
    rw [hC, hst1]
    simp [replaceOps, applyOps, applyOp, List.filter_append,
      filter_ne_after_filter_ne, List.filter_cons]
  have hu2 : ((replaceCoffees (replaceCoffees st (some t) (some [A, B])).1 (some t)
      (some [C])).1).users.find? (fun w => w.token == t) = some u := by
    rw [hst2]
    exact hu
  have hfilter2 : ((replaceCoffees (replaceCoffees st (some t) (some [A, B])).1 (some t)
      (some [C])).1).coffees.filter (fun r => r.userId == u.id) =
      [⟨st.nextCoffeeId + 2, u.id, C, st.clock + 2⟩] := by
    rw [hst2]
    dsimp only
    rw [List.filter_append, filter_eq_after_filter_ne]
    simp [List.filter_cons]
  have hl2 : listCoffees (replaceCoffees (replaceCoffees st (some t) (some [A, B])).1
      (some t) (some [C])).1 (some t) =
      ⟨200, true, none, some [⟨st.nextCoffeeId + 2, C, st.clock + 2⟩]⟩ := by
    rw [listCoffees_eq _ u t ht hu2, hfilter2]
    rfl
  have hE := replaceCoffees_eq (replaceCoffees (replaceCoffees st (some t)
    (some [A, B])).1 (some t) (some [C])).1 u t (some []) ht hu2
  have hst3 : (replaceCoffees (replaceCoffees (replaceCoffees st (some t)
      (some [A, B])).1 (some t) (some [C])).1 (some t) (some [])).1 =
      { st with
          coffees := st.coffees.filter fun r => r.userId != u.id
          nextCoffeeId := st.nextCoffeeId + 3
          clock := st.clock + 3 } := by
    rw [hE, hst2]
    simp [replaceOps, applyOps, applyOp, List.filter_append,
      filter_ne_after_filter_ne, List.filter_cons]
  have hu3 : ((replaceCoffees (replaceCoffees (replaceCoffees st (some t)
      (some [A, B])).1 (some t) (some [C])).1 (some t) (some [])).1).users.find?
      (fun w => w.token == t) = some u := by
    rw [hst3]
    exact hu
  have hl3 : listCoffees (replaceCoffees (replaceCoffees (replaceCoffees st (some t)
      (some [A, B])).1 (some t) (some [C])).1 (some t) (some [])).1 (some t) =
      ⟨200, true, none, some []⟩ := by
    rw [listCoffees_eq _ u t ht hu3]
    have : ((replaceCoffees (replaceCoffees (replaceCoffees st (some t)
        (some [A, B])).1 (some t) (some [C])).1 (some t) (some [])).1).coffees.filter
        (fun r => r.userId == u.id) = [] := by
      rw [hst3]
      dsimp only
      exact filter_eq_after_filter_ne st.coffees u.id
    rw [this]
    rfl
  refine ⟨by rw [hAB]; rfl, hl1, ?_, hl2, hl3⟩
  rw [hl1]
  exact List.Perm.swap A B []

def c1State : DB := (register initialDB (some "ab") "tok1").1

theorem c1_replace_supersedes_witness :
    (replaceCoffees c1State (some "tok1") (some ["ca", "cb"])).2.saved = some 2 ∧
    listCoffees (replaceCoffees c1State (some "tok1") (some ["ca", "cb"])).1
        (some "tok1") =
      ⟨200, true, none,
        some [⟨c1State.nextCoffeeId + 1, "cb", c1State.clock + 1⟩,
              ⟨c1State.nextCoffeeId, "ca", c1State.clock⟩]⟩ ∧
    (((listCoffees (replaceCoffees c1State (some "tok1") (some ["ca", "cb"])).1
        (some "tok1")).coffees.getD []).map CoffeeOut.data).Perm ["ca", "cb"] ∧
    listCoffees (replaceCoffees (replaceCoffees c1State (some "tok1")
        (some ["ca", "cb"])).1 (some "tok1") (some ["cc"])).1 (some "tok1") =
      ⟨200, true, none, some [⟨c1State.nextCoffeeId + 2, "cc", c1State.clock + 2⟩]⟩ ∧
    listCoffees (replaceCoffees (replaceCoffees (replaceCoffees c1State (some "tok1")
        (some ["ca", "cb"])).1 (some "tok1") (some ["cc"])).1 (some "tok1")
        (some [])).1 (some "tok1") =
      ⟨200, true, none, some []⟩ :=
  c1_replace_supersedes c1State ⟨1, "ab", "tok1", 0⟩ "tok1" "ca" "cb" "cc"
    (by decide) (by decide)

/-- C3 (amended): `POST /api/coffees` is not atomic.  With a valid token it
runs the statement sequence `replaceOps` — one delete followed by one
insert per submitted record, `1 + n` separate statements with no wrapping
transaction — and after executing only the first statement (the delete) the
user's previously stored records are already gone: an interruption at that
point leaves the user's coffee list empty, not unchanged. -/
theorem c3_nonatomic_replace :
    (∀ (st : DB) (uid : Nat) (cs : Option (List String)),
      ((applyOps st ((replaceOps uid cs).take 1)).coffees.filter
        (fun r => r.userId == uid)) = []) ∧
    (∀ (uid : Nat) (cs : List String),
      (replaceOps uid (some cs)).length = 1 + cs.length) ∧
    (∀ (st : DB) (u : User) (t : String) (cs : Option (List String)),
      t ≠ "" → st.users.find? (fun w => w.token == t) = some u →
      (replaceCoffees st (some t) cs).1 = applyOps st (replaceOps u.id cs)) := by
  refine ⟨?_, ?_, ?_⟩
  · intro st uid cs
    have h1 : (replaceOps uid cs).take 1 = [DbOp.deleteCoffees uid] := rfl
    rw [h1]
    simp only [applyOps, List.foldl_cons, List.foldl_nil, applyOp]
    exact filter_eq_after_filter_ne st.coffees uid
  · intro uid cs
    simp only [replaceOps, List.length_cons]
    by_cases h : 0 < cs.length
    · rw [if_pos h]
      simp only [List.length_map]
      omega
    · rw [if_neg h]
      simp only [List.length_nil]
      omega
  · intro st u t cs ht hu
    rw [replaceCoffees_eq st u t cs ht hu]

def c3Start : DB :=
  (replaceCoffees (register initialDB (some "cd") "tok3").1 (some "tok3")
    (some ["old"])).1

/-- C3 counterexample: a concrete reachable state in which the user's list
holds one record; executing only the first statement of the replace
sequence (the delete) leaves the coffee table empty and the state changed,
refuting "previously stored coffee records are not lost (state unchanged on
error)". -/
theorem c3_counterexample :
    c3Start.coffees ≠ [] ∧
    (applyOps c3Start ((replaceOps 1 (some ["new"])).take 1)).coffees = [] ∧
    applyOps c3Start ((replaceOps 1 (some ["new"])).take 1) ≠ c3Start := by
  refine ⟨by decide, by decide, by decide⟩

theorem c3_nonatomic_replace_witness :
    ((applyOps c3Start ((replaceOps 1 (some ["new"])).take 1)).coffees.filter
      (fun r => r.userId == 1)) = [] ∧
    (replaceCoffees (register initialDB (some "cd") "tok3").1 (some "tok3")
        (some ["x"])).1 =
      applyOps (register initialDB (some "cd") "tok3").1 (replaceOps 1 (some ["x"])) :=
  ⟨c3_nonatomic_replace.1 c3Start 1 (some ["new"]),
   c3_nonatomic_replace.2.2 (register initialDB (some "cd") "tok3").1
     ⟨1, "cd", "tok3", 0⟩ "tok3" (some ["x"]) (by decide) (by decide)⟩

/-- C10: a `POST /api/coffees` with a valid token whose `coffees` field is
absent behaves exactly like one submitting the empty list: the handler
still deletes every stored record of the user and answers success with
`saved = 0`. -/
theorem c10_absent_coffees_clears (st : DB) (u : User) (t : String)
    (ht : t ≠ "") (hu : st.users.find? (fun w => w.token == t) = some u) :
    replaceCoffees st (some t) none = replaceCoffees st (some t) (some []) ∧
    (replaceCoffees st (some t) none).2 = ⟨200, true, none, some 0⟩ ∧
    ((replaceCoffees st (some t) none).1.coffees.filter
      (fun r => r.userId == u.id)) = [] := by
  have hn := replaceCoffees_eq st u t none ht hu
  have he := replaceCoffees_eq st u t (some []) ht hu
  refine ⟨?_, ?_, ?_⟩
  · rw [hn, he]
    rfl
  · rw [hn]
  · rw [hn]
    simp only [replaceOps, applyOps, List.foldl_cons, List.foldl_nil, applyOp]
    exact filter_eq_after_filter_ne st.coffees u.id

theorem c10_absent_coffees_clears_witness :
    replaceCoffees (register initialDB (some "ef") "tok5").1 (some "tok5") none =
      replaceCoffees (register initialDB (some "ef") "tok5").1 (some "tok5")
        (some []) ∧
    (replaceCoffees (register initialDB (some "ef") "tok5").1 (some "tok5")
        none).2 = ⟨200, true, none, some 0⟩ ∧
    ((replaceCoffees (register initialDB (some "ef") "tok5").1 (some "tok5")
        none).1.coffees.filter (fun r => r.userId == 1)) = [] :=
  c10_absent_coffees_clears (register initialDB (some "ef") "tok5").1
    ⟨1, "ef", "tok5", 0⟩ "tok5" (by decide) (by decide)

end BrewBuddy
